import Mathlib

/-!
Verification of studiofrenetic/period (src/period.go) against its
specification.

Representation choices:
* An instant (Go `time.Time` in UTC) is its nanosecond offset from the Unix
  epoch, as a mathematical integer.  `compareDate` in the
  source compares `UnixNano()` values, which is integer comparison; int64
  overflow of `UnixNano` (only reachable for dates about 292 years away from
  1970, or for the zero `time.Time`) is not modelled, and no claim compares
  such instants.
* Calendar arithmetic of Go's `time` package (`time.Date`, `AddDate`,
  `Weekday`, `ISOWeek`, `YearDay`) is modelled on day numbers (days since
  1970-01-01) with a standard proleptic-Gregorian civil-date bijection
  (`daysFromCivil` / `civilFromDays`), the calendar Go's time package
  implements.  All instants the constructors manipulate are midnights, so
  day-number arithmetic is exact.
* Go slices of errors are `List Err`; a nil slice is `[]`.
-/

/-- Nanoseconds per day (24 h); Go `time.Hour * 24` in nanoseconds. -/
def nsPerDay : Int := 86400000000000

/-- The instant of midnight UTC of day number `z` (days since 1970-01-01). -/
def dayNs (z : Int) : Int := z * nsPerDay

/-- Day number (days since 1970-01-01) of the proleptic-Gregorian civil date
`y-m-d`, for `m` between 1 and 12; linear in `d`, so day overflow rolls over
exactly as Go's `time.Date` normalization does.  Models the date-to-instant
conversion of Go's time package. -/
def daysFromCivil (y m d : Int) : Int :=
  (if m ≤ 2 then y - 1 else y) / 400 * 146097 +
    ((if m ≤ 2 then y - 1 else y) - (if m ≤ 2 then y - 1 else y) / 400 * 400) * 365 +
    ((if m ≤ 2 then y - 1 else y) - (if m ≤ 2 then y - 1 else y) / 400 * 400) / 4 -
    ((if m ≤ 2 then y - 1 else y) - (if m ≤ 2 then y - 1 else y) / 400 * 400) / 100 +
    ((153 * (if m ≤ 2 then m + 9 else m - 3) + 2) / 5 + d - 1) - 719468

/-- Era (400-year Gregorian cycle) of day number `z`, counted from 0000-03-01. -/
def eraOf (z : Int) : Int := (z + 719468) / 146097

/-- Day-of-era of day number `z`: 0 ≤ doeOf z ≤ 146096. -/
def doeOf (z : Int) : Int := (z + 719468) % 146097

/-- Year-of-era (0..399, March-based) of day number `z`: a first estimate
`doe / 366` is raised by one when the next year-of-era already started. -/
def yoeOf (z : Int) : Int :=
  if doeOf z / 366 ≤ 398 ∧
      365 * (doeOf z / 366 + 1) + (doeOf z / 366 + 1) / 4 - (doeOf z / 366 + 1) / 100 ≤ doeOf z
  then doeOf z / 366 + 1 else doeOf z / 366

/-- Day-of-year (March-based, 0..365) of day number `z`. -/
def doyOf (z : Int) : Int := doeOf z - (365 * yoeOf z + yoeOf z / 4 - yoeOf z / 100)

/-- March-based month index (0..11) of day number `z`. -/
def mpOf (z : Int) : Int := (5 * doyOf z + 2) / 153

/-- Civil month (1..12) of day number `z`. -/
def monthOf (z : Int) : Int := if mpOf z < 10 then mpOf z + 3 else mpOf z - 9

/-- Civil day of month (1..31) of day number `z`. -/
def dayOf (z : Int) : Int := doyOf z - (153 * mpOf z + 2) / 5 + 1

/-- Civil year of day number `z`; models `Time.Year` of Go's time package. -/
def yearOf (z : Int) : Int :=
  if monthOf z ≤ 2 then yoeOf z + 400 * eraOf z + 1 else yoeOf z + 400 * eraOf z

/-- Day number to civil date `(y, m, d)`; inverse of `daysFromCivil`. -/
def civilFromDays (z : Int) : Int × Int × Int := (yearOf z, monthOf z, dayOf z)

/-- Models Go `time.Date(y, m, d, 0, 0, 0, 0, time.UTC)` as a day number:
the month is normalized into 1..12 (overflow moves the year, exactly Go's
`norm`), and the day is added linearly (Go's day-of-month overflow rule). -/
def goDate (y m d : Int) : Int :=
  daysFromCivil (y + (m - 1) / 12) ((m - 1) % 12 + 1) d

/-- Weekday of day number `z`, Go numbering (Sunday = 0 .. Saturday = 6);
1970-01-01 was a Thursday.  Models `Time.Weekday`. -/
def goWeekday (z : Int) : Int := (z + 4) % 7

/-- The Thursday of the Monday-to-Sunday week containing day `z`; Go's
`ISOWeek` computes `d := Thursday - wd; if d == 4 { d = -3 }; thu := z + d`. -/
def isoThursday (z : Int) : Int :=
  z + (if 4 - goWeekday z = 4 then -3 else 4 - goWeekday z)

/-- Models Go `Time.ISOWeek` on day number `z`: the ISO year is the civil
year of the week's Thursday, the week index is `(yday - 1) / 7 + 1` of that
Thursday. -/
def isoWeekPair (z : Int) : Int × Int :=
  (yearOf (isoThursday z),
    (isoThursday z - daysFromCivil (yearOf (isoThursday z)) 1 1) / 7 + 1)

/-- Models Go `Time.AddDate(years, months, days)` for the midnight-UTC
instants the constructors manipulate: convert to the civil date, add each
component, rebuild via the `time.Date` normalization. -/
def addDate (t : Int) (years months days : Int) : Int :=
  dayNs (goDate (yearOf (t / nsPerDay) + years) (monthOf (t / nsPerDay) + months)
    (dayOf (t / nsPerDay) + days))

/-- The Go zero `time.Time`: January 1, year 1, 00:00:00 UTC. -/
def zeroTime : Int := dayNs (daysFromCivil 1 1 1)

/-- Modelled from the spec: the error values (`OutOfRangeError`,
`ShouldOverlapsError` — the spec's `MustOverlapError` — and
`BothShouldNotAbuts` — the spec's `AbutsError`) are declared in a repository
file that is not under `src/`; only their identities matter here. -/
inductive Err where
  | OutOfRangeError
  | ShouldOverlapsError
  | BothShouldNotAbuts
deriving DecidableEq, Repr

/-- `type Period struct { Start, End time.Time }` (src/period.go). -/
structure Period where
  Start : Int
  End : Int
deriving DecidableEq, Repr

/-- `compareDate` (src/period.go): three-way comparison of `UnixNano()`. -/
def compareDate (date1 date2 : Int) : Int :=
  if date1 > date2 then 1
  else if date1 < date2 then -1
  else 0

/-- `validateRange` (src/period.go): the value is returned unchanged, with
`[]error{OutOfRangeError}` when it falls outside `[min, max]`. -/
def validateRange (value min max : Int) : Int × List Err :=
  if value < min ∨ value > max then (value, [Err.OutOfRangeError])
  else (value, [])

/-- `addDuration` (src/period.go): `date.Add(duration)`. -/
def addDuration (date : Int) (duration : Int) : Int := date + duration

/-- `subDuration` (src/period.go): `date.Add(-duration)`. -/
def subDuration (date : Int) (duration : Int) : Int := date + (-duration)

/-- `Period.Contains` (src/period.go). -/
def Period.Contains (p : Period) (index : Int) : Bool :=
  (-1 < compareDate index p.Start) && (-1 == compareDate index p.End)

/-- `Period.StartingOn` (src/period.go); the receiver update, as a function. -/
def Period.StartingOn (p : Period) (start : Int) : Period := { p with Start := start }

/-- `Period.EndingOn` (src/period.go). -/
def Period.EndingOn (p : Period) (e : Int) : Period := { p with End := e }

/-- `Period.WithDuration` (src/period.go). -/
def Period.WithDuration (p : Period) (duration : Int) : Period :=
  { p with End := addDuration p.Start duration }

/-- `Period.Add` (src/period.go). -/
def Period.Add (p : Period) (duration : Int) : Period :=
  { p with End := addDuration p.End duration }

/-- `Period.Sub` (src/period.go). -/
def Period.Sub (p : Period) (duration : Int) : Period :=
  { p with End := subDuration p.End duration }

/-- `Period.GetDurationInterval` (src/period.go): `End.UnixNano() - Start.UnixNano()`
nanoseconds. -/
def Period.GetDurationInterval (p : Period) : Int := p.End - p.Start

/-- `Period.Next` (src/period.go): mutates the receiver to the period of the
same duration starting at the old end; modelled as returning the new value. -/
def Period.Next (p : Period) : Period :=
  { Start := p.End, End := addDuration p.End p.GetDurationInterval }

/-- `Period.Previous` (src/period.go). -/
def Period.Previous (p : Period) : Period :=
  { Start := subDuration p.Start p.GetDurationInterval, End := p.Start }

/-- `in_array` (src/period.go): first index of `val` in the slice, with an
existence flag; `(false, -1)` when absent. -/
def in_array (val : Int) (array : List Int) : Bool × Int :=
  go array 0
where
  /-- The reflective loop over the slice, carrying the current index. -/
  go : List Int → Int → Bool × Int
    | [], _ => (false, -1)
    | x :: xs, i => if x = val then (true, i) else go xs (i + 1)

/-- `Period.Abuts` (src/period.go): searches 0 among the two boundary
comparisons, returning the flag and the position. -/
def Period.Abuts (p : Period) (period : Period) : Bool × Int :=
  in_array 0 [compareDate p.Start period.End, compareDate p.End period.Start]

/-- `Period.Overlaps` (src/period.go). -/
def Period.Overlaps (p : Period) (period : Period) : Bool :=
  if (p.Abuts period).1 then false
  else (-1 == compareDate p.Start period.End) && (1 == compareDate p.End period.Start)

/-- `Period.SameValueAs` (src/period.go). -/
def Period.SameValueAs (p : Period) (period : Period) : Bool :=
  (0 == compareDate p.Start period.Start) && (0 == compareDate p.End period.End)

/-- `Period.IsAfter` (src/period.go). -/
def Period.IsAfter (p : Period) (period : Period) : Bool :=
  -1 < compareDate p.Start period.Start

/-- `Period.IsBefore` (src/period.go). -/
def Period.IsBefore (p : Period) (period : Period) : Bool :=
  1 > compareDate p.End period.End

/-- `createFromDatepoints` (src/period.go): the two instants in order. -/
def createFromDatepoints (date1 date2 : Int) : Period :=
  if 1 == compareDate date1 date2 then { Start := date2, End := date1 }
  else { Start := date1, End := date2 }

/-- `Period.Diff` (src/period.go). -/
def Period.Diff (p : Period) (period : Period) : List Period × List Err :=
  if p.Overlaps period = false then ([], [Err.ShouldOverlapsError])
  else
    ((if compareDate (createFromDatepoints p.Start period.Start).Start
          (createFromDatepoints p.Start period.Start).End ≠ 0
        then [createFromDatepoints p.Start period.Start] else []) ++
      (if compareDate (createFromDatepoints p.End period.End).Start
          (createFromDatepoints p.End period.End).End ≠ 0
        then [createFromDatepoints p.End period.End] else []), [])

/-- `Period.Merge` (src/period.go): folds the argument list over the
receiver, lowering `Start` and raising `End`. -/
def Period.Merge (p : Period) (periods : List Period) : Period :=
  periods.foldl
    (fun acc period =>
      Period.mk
        (if 1 == compareDate acc.Start period.Start then period.Start else acc.Start)
        (if -1 == compareDate acc.End period.End then period.End else acc.End))
    p

/-- `Period.Intersect` (src/period.go). -/
def Period.Intersect (p : Period) (period : Period) : Period × List Err :=
  if (p.Abuts period).1 then ({ Start := zeroTime, End := zeroTime }, [Err.BothShouldNotAbuts])
  else
    ({ Start := if 1 == compareDate period.Start p.Start then period.Start else p.Start,
       End := if -1 == compareDate period.End p.End then period.End else p.End }, [])

/-- `Period.Gap` (src/period.go). -/
def Period.Gap (p : Period) (period : Period) : Period :=
  if 1 == compareDate period.Start p.Start then { Start := p.End, End := period.Start }
  else { Start := period.End, End := p.Start }

/-- `Period.CompareDuration` (src/period.go): compares the two `End`
instants (not the two durations). -/
def Period.CompareDuration (p : Period) (period : Period) : Int :=
  compareDate p.End period.End

/-- `Period.DurationGreaterThan` (src/period.go). -/
def Period.DurationGreaterThan (p : Period) (period : Period) : Bool :=
  1 == p.CompareDuration period

/-- `Period.DurationLessThan` (src/period.go). -/
def Period.DurationLessThan (p : Period) (period : Period) : Bool :=
  -1 == p.CompareDuration period

/-- `Period.SameDurationAs` (src/period.go; the copy of the file in
src/unnamed/part_001 compares `GetDurationInterval` values instead). -/
def Period.SameDurationAs (p : Period) (period : Period) : Bool :=
  0 == p.CompareDuration period

/-- `Period.TimestampDurationDiff` (src/period.go). -/
def Period.TimestampDurationDiff (p : Period) (period : Period) : Int :=
  p.GetDurationInterval - period.GetDurationInterval

/-- `Period.DurationDiff` (src/period.go). -/
def Period.DurationDiff (p : Period) (period : Period) : Int :=
  p.TimestampDurationDiff period

/-- `CreateFromDuration` (src/period.go). -/
def CreateFromDuration (start : Int) (duration : Int) : Period × List Err :=
  ({ Start := start, End := addDuration start duration }, [])

/-- `CreateFromDurationBeforeEnd` (src/period.go). -/
def CreateFromDurationBeforeEnd (e : Int) (duration : Int) : Period × List Err :=
  ({ Start := subDuration e duration, End := e }, [])

/-- Models `fmt.Sprintf("%d-%02d-01 00:00:00", year, month)` followed by
`time.Parse(YMDHIS, ...)`: the layout's reference year `2006` consumes
exactly four digits, so the parse succeeds iff `%d` printed the year as four
digits, i.e. 1000 ≤ year ≤ 9999 (months 1..12 always print as two digits);
on failure `time.Parse` returns the zero `time.Time`. -/
def parseYearMonth (year month : Int) : Option Int :=
  if 1000 ≤ year ∧ year ≤ 9999 then some (dayNs (daysFromCivil year month 1))
  else none

/-- `CreateFromMonth` (src/period.go): the parse error is discarded with the
blank identifier, so an unparsable year silently yields the zero Start. -/
def CreateFromMonth (year month : Int) : Period × List Err :=
  if (validateRange month 1 12).2 ≠ [] then
    ({ Start := zeroTime, End := zeroTime }, (validateRange month 1 12).2)
  else
    ({ Start := (parseYearMonth year (validateRange month 1 12).1).getD zeroTime,
       End := addDate ((parseYearMonth year (validateRange month 1 12).1).getD zeroTime)
         0 1 0 }, [])

/-- `CreateFromQuarter` (src/period.go). -/
def CreateFromQuarter (year quarter : Int) : Period × List Err :=
  if (validateRange quarter 1 4).2 ≠ [] then
    ({ Start := zeroTime, End := zeroTime }, (validateRange quarter 1 4).2)
  else
    ({ Start := (parseYearMonth year (((validateRange quarter 1 4).1 - 1) * 3 + 1)).getD zeroTime,
       End := addDate ((parseYearMonth year (((validateRange quarter 1 4).1 - 1) * 3 + 1)).getD
         zeroTime) 0 3 0 }, [])

/-- `CreateFromSemester` (src/period.go). -/
def CreateFromSemester (year semester : Int) : Period × List Err :=
  if (validateRange semester 1 2).2 ≠ [] then
    ({ Start := zeroTime, End := zeroTime }, (validateRange semester 1 2).2)
  else
    ({ Start := (parseYearMonth year (((validateRange semester 1 2).1 - 1) * 6 + 1)).getD zeroTime,
       End := addDate ((parseYearMonth year (((validateRange semester 1 2).1 - 1) * 6 + 1)).getD
         zeroTime) 0 6 0 }, [])

/-- `CreateFromYear` (src/period.go): no validation, `"%d-01-01 00:00:00"`
parsed, the parse error discarded, then `AddDate(1, 0, 0)`. -/
def CreateFromYear (year : Int) : Period × List Err :=
  ({ Start := (parseYearMonth year 1).getD zeroTime,
     End := addDate ((parseYearMonth year 1).getD zeroTime) 1 0 0 }, [])

/-- The Monday on or before January 4 of year `y`: by the ISO-8601 rule
(week 1 contains the first Thursday, equivalently January 4) this is the
first day of ISO week 1 of ISO year `y`.  Spec-side definition used to state
what `CreateFromWeek` computes. -/
def isoWeek1Monday (y : Int) : Int :=
  daysFromCivil y 1 4 - (goWeekday (daysFromCivil y 1 4) + 6) % 7

/-- The package default `var StartWeek time.Weekday = time.Monday`. -/
def StartWeek : Int := 1

/-- First loop of `CreateFromWeek`: step one day back until Monday.  The
source loop is day-stepping; the fuel (7 suffices) only bounds it. -/
def fromWeekLoop1 : Nat → Int → Int
  | 0, z => z
  | n + 1, z => if goWeekday z ≠ 1 then fromWeekLoop1 n (z - 1) else z

/-- Second loop of `CreateFromWeek`: step one day forward until the ISO year
reaches the requested year. -/
def fromWeekLoop2 (year : Int) : Nat → Int → Int
  | 0, z => z
  | n + 1, z => if (isoWeekPair z).1 < year then fromWeekLoop2 year n (z + 1) else z

/-- Third loop of `CreateFromWeek`: step one day forward until the ISO week
reaches the requested week. -/
def fromWeekLoop3 (week : Int) : Nat → Int → Int
  | 0, z => z
  | n + 1, z => if (isoWeekPair z).2 < week then fromWeekLoop3 week n (z + 1) else z

/-- Fourth loop of `CreateFromWeek`: realign to `StartWeek` by repeatedly
adding `StartWeek - Monday` days (0 with the default Monday). -/
def fromWeekLoop4 : Nat → Int → Int
  | 0, z => z
  | n + 1, z => if goWeekday z ≠ StartWeek then fromWeekLoop4 n (z + (StartWeek - 1)) else z

/-- The day-number start of `CreateFromWeek` after the four source loops,
seeded with `time.Date(year, 0, 0, ...)` (November 30 of `year - 1`). -/
def createFromWeekDay (year week : Int) : Int :=
  fromWeekLoop4 7 (fromWeekLoop3 week 8192 (fromWeekLoop2 year 64 (fromWeekLoop1 7
    (goDate year 0 0))))

/-- `CreateFromWeek` (src/period.go): validate the week index, run the four
day-stepping loops, and add seven days for the end. -/
def CreateFromWeek (year week : Int) : Period × List Err :=
  if (validateRange week 1 53).2 ≠ [] then
    ({ Start := zeroTime, End := zeroTime }, (validateRange week 1 53).2)
  else
    ({ Start := dayNs (createFromWeekDay year (validateRange week 1 53).1),
       End := dayNs (createFromWeekDay year (validateRange week 1 53).1 + 7) }, [])


/-! ### Sanity checks of the calendar model on concrete dates -/

example : daysFromCivil 1970 1 1 = 0 := by decide
example : daysFromCivil 2015 1 4 = 16439 := by decide
example : daysFromCivil 1 1 1 = -719162 := by decide
example : civilFromDays 0 = (1970, 1, 1) := by decide
example : civilFromDays 16621 = (2015, 7, 5) := by decide
example : civilFromDays (-573372) = (400, 2, 29) := by decide
example : isoWeekPair 16439 = (2015, 1) := by decide
example : goWeekday 0 = 4 := by decide

/-! ### The civil-calendar model: the year of a day number -/
theorem doe_bounds (z : Int) :
    0 ≤ doeOf z ∧ doeOf z ≤ 146096 ∧ z = eraOf z * 146097 + doeOf z - 719468 := by
  unfold doeOf eraOf; omega

theorem yoe_facts (z : Int) :
    0 ≤ yoeOf z ∧ yoeOf z ≤ 399 ∧
    365 * yoeOf z + yoeOf z / 4 - yoeOf z / 100 ≤ doeOf z ∧
    doeOf z - (365 * yoeOf z + yoeOf z / 4 - yoeOf z / 100) ≤ 365 ∧
    (yoeOf z ≤ 398 →
      doeOf z < 365 * (yoeOf z + 1) + (yoeOf z + 1) / 4 - (yoeOf z + 1) / 100) := by
  have h := doe_bounds z
  unfold yoeOf
  split_ifs with h1 <;> omega

theorem doy_bounds (z : Int) : 0 ≤ doyOf z ∧ doyOf z ≤ 365 := by
  have h1 := yoe_facts z
  unfold doyOf
  omega

theorem yearOf_eq_aux (z : Int) :
    yearOf z = if 306 ≤ doyOf z then yoeOf z + 400 * eraOf z + 1
               else yoeOf z + 400 * eraOf z := by
  have h1 := doy_bounds z
  unfold yearOf monthOf mpOf
  split_ifs <;> omega

theorem jan1_closed (era yoe : Int) (h2 : 0 ≤ yoe) (h3 : yoe ≤ 399) :
    daysFromCivil (yoe + 400 * era + 1) 1 1 =
      era * 146097 + (365 * yoe + yoe / 4 - yoe / 100) + 306 - 719468 := by
  unfold daysFromCivil
  have hf1 : (yoe + 400 * era + 1 - 1) / 400 = era := by omega
  have hf2 : 365 * ((yoe + 400 * era + 1 - 1) - (yoe + 400 * era + 1 - 1) / 400 * 400) +
      ((yoe + 400 * era + 1 - 1) - (yoe + 400 * era + 1 - 1) / 400 * 400) / 4 -
      ((yoe + 400 * era + 1 - 1) - (yoe + 400 * era + 1 - 1) / 400 * 400) / 100
      = 365 * yoe + yoe / 4 - yoe / 100 := by omega
  split_ifs with hm
  · omega
  · exact absurd (by norm_num) hm

theorem jan1_char_high (era yoe doe z : Int)
    (hz : z = era * 146097 + doe - 719468)
    (h0 : 0 ≤ doe) (h1 : doe ≤ 146096) (h2 : 0 ≤ yoe) (h3 : yoe ≤ 399)
    (h4 : 365 * yoe + yoe / 4 - yoe / 100 ≤ doe)
    (h5 : doe - (365 * yoe + yoe / 4 - yoe / 100) ≤ 365)
    (h6 : yoe ≤ 398 → doe < 365 * (yoe + 1) + (yoe + 1) / 4 - (yoe + 1) / 100)
    (hc : 306 ≤ doe - (365 * yoe + yoe / 4 - yoe / 100)) :
    daysFromCivil (yoe + 400 * era + 1) 1 1 ≤ z ∧
      z < daysFromCivil (yoe + 400 * era + 1 + 1) 1 1 := by
  have e1 := jan1_closed era yoe h2 h3
  rcases le_or_lt yoe 398 with hy | hy
  · have e2 := jan1_closed era (yoe + 1) (by omega) (by omega)
    rw [show yoe + 400 * era + 1 + 1 = yoe + 1 + 400 * era + 1 by ring]
    omega
  · have e2 := jan1_closed (era + 1) 0 (by omega) (by omega)
    rw [show yoe + 400 * era + 1 + 1 = 0 + 400 * (era + 1) + 1 by omega]
    omega

theorem jan1_char_low (era yoe doe z : Int)
    (hz : z = era * 146097 + doe - 719468)
    (h0 : 0 ≤ doe) (h1 : doe ≤ 146096) (h2 : 0 ≤ yoe) (h3 : yoe ≤ 399)
    (h4 : 365 * yoe + yoe / 4 - yoe / 100 ≤ doe)
    (h5 : doe - (365 * yoe + yoe / 4 - yoe / 100) ≤ 365)
    (h6 : yoe ≤ 398 → doe < 365 * (yoe + 1) + (yoe + 1) / 4 - (yoe + 1) / 100)
    (hc : doe - (365 * yoe + yoe / 4 - yoe / 100) < 306) :
    daysFromCivil (yoe + 400 * era) 1 1 ≤ z ∧
      z < daysFromCivil (yoe + 400 * era + 1) 1 1 := by
  have e1 := jan1_closed era yoe h2 h3
  rcases le_or_lt 1 yoe with hy | hy
  · have e2 := jan1_closed era (yoe - 1) (by omega) (by omega)
    rw [show yoe - 1 + 400 * era + 1 = yoe + 400 * era by ring] at e2
    omega
  · have e2 := jan1_closed (era - 1) 399 (by omega) (by omega)
    rw [show 399 + 400 * (era - 1) + 1 = yoe + 400 * era by omega] at e2
    omega

theorem yearOf_char (z : Int) :
    daysFromCivil (yearOf z) 1 1 ≤ z ∧ z < daysFromCivil (yearOf z + 1) 1 1 := by
  have hdoe := doe_bounds z
  have hyoe := yoe_facts z
  have haux := yearOf_eq_aux z
  rcases le_or_lt 306 (doyOf z) with hc | hc
  · have hy : yearOf z = yoeOf z + 400 * eraOf z + 1 := by rw [haux, if_pos hc]
    rw [hy]
    unfold doyOf at hc
    exact jan1_char_high (eraOf z) (yoeOf z) (doeOf z) z (by omega) hdoe.1 hdoe.2.1
      hyoe.1 hyoe.2.1 hyoe.2.2.1 hyoe.2.2.2.1 hyoe.2.2.2.2 hc
  · have hy : yearOf z = yoeOf z + 400 * eraOf z := by rw [haux, if_neg (by omega)]
    rw [hy]
    unfold doyOf at hc
    exact jan1_char_low (eraOf z) (yoeOf z) (doeOf z) z (by omega) hdoe.1 hdoe.2.1
      hyoe.1 hyoe.2.1 hyoe.2.2.1 hyoe.2.2.2.1 hyoe.2.2.2.2 hc

theorem jan1_general (y : Int) :
    daysFromCivil y 1 1 =
      (y - 1) / 400 * 146097 +
        (365 * ((y - 1) % 400) + ((y - 1) % 400) / 4 - ((y - 1) % 400) / 100) +
        306 - 719468 := by
  have h := jan1_closed ((y - 1) / 400) ((y - 1) % 400) (by omega) (by omega)
  rw [show (y - 1) % 400 + 400 * ((y - 1) / 400) + 1 = y by omega] at h
  exact h

theorem jan1_mono (a b : Int) (hab : a ≤ b) :
    daysFromCivil a 1 1 ≤ daysFromCivil b 1 1 := by
  rw [jan1_general a, jan1_general b]
  omega

theorem jan1_len (y : Int) :
    365 ≤ daysFromCivil (y + 1) 1 1 - daysFromCivil y 1 1 ∧
      daysFromCivil (y + 1) 1 1 - daysFromCivil y 1 1 ≤ 366 := by
  rw [jan1_general y, jan1_general (y + 1)]
  omega

theorem yearOf_eq (y z : Int) (h1 : daysFromCivil y 1 1 ≤ z)
    (h2 : z < daysFromCivil (y + 1) 1 1) : yearOf z = y := by
  have hw := yearOf_char z
  rcases lt_trichotomy (yearOf z) y with h | h | h
  · have := jan1_mono (yearOf z + 1) y (by omega)
    omega
  · exact h
  · have := jan1_mono (y + 1) (yearOf z) (by omega)
    omega

/-! ### ISO week facts and the `CreateFromWeek` loops -/
theorem goDate_seed (y : Int) : goDate y 0 0 = daysFromCivil y 1 1 - 32 := by
  unfold goDate
  rw [show ((0 : Int) - 1) / 12 = -1 by decide, show ((0 : Int) - 1) % 12 + 1 = 12 by decide]
  unfold daysFromCivil
  split_ifs <;> omega

theorem jan4_eq (y : Int) : daysFromCivil y 1 4 = daysFromCivil y 1 1 + 3 := by
  unfold daysFromCivil
  split_ifs <;> omega

theorem isoWeek1Monday_facts (y : Int) :
    goWeekday (isoWeek1Monday y) = 1 ∧
    daysFromCivil y 1 1 ≤ isoWeek1Monday y + 3 ∧
    isoWeek1Monday y + 3 ≤ daysFromCivil y 1 1 + 6 := by
  have h4 := jan4_eq y
  unfold isoWeek1Monday goWeekday
  omega

theorem monday_align (z : Int) : goWeekday (z - (goWeekday z + 6) % 7) = 1 := by
  unfold goWeekday
  omega

theorem fromWeekLoop1_run (k : Nat) : ∀ (n : Nat) (z : Int), k ≤ n →
    ((goWeekday z + 6) % 7).toNat = k → fromWeekLoop1 n z = z - k := by
  induction k with
  | zero =>
    intro n z _hn hk
    have hw : goWeekday z = 1 := by unfold goWeekday at *; omega
    cases n with
    | zero => simp [fromWeekLoop1]
    | succ m => simp [fromWeekLoop1, hw]
  | succ k ih =>
    intro n z hn hk
    have hw : goWeekday z ≠ 1 := by unfold goWeekday at *; omega
    cases n with
    | zero => omega
    | succ m =>
      rw [show fromWeekLoop1 (m + 1) z = fromWeekLoop1 m (z - 1) by simp [fromWeekLoop1, hw]]
      rw [ih m (z - 1) (by omega) (by unfold goWeekday at *; omega)]
      push_cast
      ring

theorem fromWeekLoop2_run (year : Int) (d : Nat) : ∀ (n : Nat) (z : Int), d ≤ n →
    (∀ u : Int, z ≤ u → u < z + d → (isoWeekPair u).1 < year) →
    ¬ ((isoWeekPair (z + d)).1 < year) →
    fromWeekLoop2 year n z = z + d := by
  induction d with
  | zero =>
    intro n z _hn _hint hexit
    have hx : ¬ ((isoWeekPair z).1 < year) := by simpa using hexit
    cases n with
    | zero => simp [fromWeekLoop2]
    | succ m => simp [fromWeekLoop2, hx]
  | succ d ih =>
    intro n z hn hint hexit
    have hc : (isoWeekPair z).1 < year := hint z (le_refl z) (by push_cast; omega)
    cases n with
    | zero => omega
    | succ m =>
      rw [show fromWeekLoop2 year (m + 1) z = fromWeekLoop2 year m (z + 1) by
        simp [fromWeekLoop2, hc]]
      rw [ih m (z + 1) (by omega) (fun u hu1 hu2 => hint u (by omega) (by push_cast at hu2 ⊢; omega))
        (by rw [show z + 1 + (d : Int) = z + ((d : Int) + 1) by ring]; push_cast at hexit ⊢; exact hexit)]
      push_cast
      ring

theorem fromWeekLoop3_run (week : Int) (d : Nat) : ∀ (n : Nat) (z : Int), d ≤ n →
    (∀ u : Int, z ≤ u → u < z + d → (isoWeekPair u).2 < week) →
    ¬ ((isoWeekPair (z + d)).2 < week) →
    fromWeekLoop3 week n z = z + d := by
  induction d with
  | zero =>
    intro n z _hn _hint hexit
    have hx : ¬ ((isoWeekPair z).2 < week) := by simpa using hexit
    cases n with
    | zero => simp [fromWeekLoop3]
    | succ m => simp [fromWeekLoop3, hx]
  | succ d ih =>
    intro n z hn hint hexit
    have hc : (isoWeekPair z).2 < week := hint z (le_refl z) (by push_cast; omega)
    cases n with
    | zero => omega
    | succ m =>
      rw [show fromWeekLoop3 week (m + 1) z = fromWeekLoop3 week m (z + 1) by
        simp [fromWeekLoop3, hc]]
      rw [ih m (z + 1) (by omega) (fun u hu1 hu2 => hint u (by omega) (by push_cast at hu2 ⊢; omega))
        (by rw [show z + 1 + (d : Int) = z + ((d : Int) + 1) by ring]; push_cast at hexit ⊢; exact hexit)]
      push_cast
      ring

theorem fromWeekLoop4_run (n : Nat) (z : Int) (h : goWeekday z = 1) :
    fromWeekLoop4 n z = z := by
  cases n with
  | zero => rfl
  | succ m => simp [fromWeekLoop4, h, StartWeek]

theorem isoThursday_of_monday (M u : Int) (hM : goWeekday M = 1) (hu : M ≤ u) :
    isoThursday u = M + 7 * ((u - M) / 7) + 3 ∧
    M + 7 * ((u - M) / 7) ≤ u ∧ u ≤ M + 7 * ((u - M) / 7) + 6 := by
  unfold isoThursday goWeekday at *
  split_ifs <;> omega

theorem isoWeekPair_at (M u y : Int) (hM : goWeekday M = 1) (hu : M ≤ u)
    (hy1 : daysFromCivil y 1 1 ≤ M + 7 * ((u - M) / 7) + 3)
    (hy2 : M + 7 * ((u - M) / 7) + 3 < daysFromCivil (y + 1) 1 1) :
    isoWeekPair u =
      (y, (M + 7 * ((u - M) / 7) + 3 - daysFromCivil y 1 1) / 7 + 1) := by
  have hthu := isoThursday_of_monday M u hM hu
  unfold isoWeekPair
  rw [hthu.1, yearOf_eq y _ hy1 hy2]

theorem createFromWeekDay_eq (y w : Int) (hw1 : 1 ≤ w) (hw53 : w ≤ 53)
    (hex : isoWeekPair (isoWeek1Monday y + 7 * (w - 1)) = (y, w)) :
    createFromWeekDay y w = isoWeek1Monday y + 7 * (w - 1) := by
  obtain ⟨hMw, hM1, hM2⟩ := isoWeek1Monday_facts y
  have hlen := jan1_len y
  have hlenp := jan1_len (y - 1)
  rw [show y - 1 + 1 = y by ring] at hlenp
  have hseed := goDate_seed y
  -- loop 1: back to the Monday m0
  have hl1 : fromWeekLoop1 7 (goDate y 0 0) =
      goDate y 0 0 - ((goWeekday (goDate y 0 0) + 6) % 7).toNat :=
    fromWeekLoop1_run ((goWeekday (goDate y 0 0) + 6) % 7).toNat 7 (goDate y 0 0)
      (by unfold goWeekday; omega) rfl
  have hm0w : goWeekday (goDate y 0 0 - ((goWeekday (goDate y 0 0) + 6) % 7).toNat) = 1 := by
    have := monday_align (goDate y 0 0)
    unfold goWeekday at this ⊢
    omega
  set m0 := goDate y 0 0 - ((goWeekday (goDate y 0 0) + 6) % 7).toNat with hm0def
  have hm0b : goDate y 0 0 - 6 ≤ m0 ∧ m0 ≤ goDate y 0 0 := by
    rw [hm0def]; unfold goWeekday; omega
  set M := isoWeek1Monday y with hMdef
  have hm0M : m0 ≤ M := by omega
  have hmod : (M - m0) % 7 = 0 := by
    unfold goWeekday at hMw hm0w
    omega
  -- the Thursday of the target week stays inside year y
  have hthuW : isoThursday (M + 7 * (w - 1)) = M + 7 * (w - 1) + 3 := by
    have h := (isoThursday_of_monday M (M + 7 * (w - 1)) hMw (by omega)).1
    rw [show (M + 7 * (w - 1) - M) / 7 = w - 1 by omega] at h
    exact h
  have hyw : yearOf (M + 7 * (w - 1) + 3) = y := by
    have hfst := congrArg Prod.fst hex
    unfold isoWeekPair at hfst
    rw [hthuW] at hfst
    exact hfst
  have hcharW := yearOf_char (M + 7 * (w - 1) + 3)
  rw [hyw] at hcharW
  -- loop 2 reaches M, the Monday of ISO week 1 of year y
  have hint2 : ∀ u : Int, m0 ≤ u → u < m0 + ((M - m0).toNat : Int) →
      (isoWeekPair u).1 < y := by
    intro u hu1 hu2
    rw [show m0 + ((M - m0).toNat : Int) = M by omega] at hu2
    have hq0 : 0 ≤ (u - m0) / 7 := by omega
    have hq1 : 7 * ((u - m0) / 7) ≤ M - m0 - 7 := by omega
    have hlow : daysFromCivil (y - 1) 1 1 ≤ m0 + 7 * ((u - m0) / 7) + 3 := by omega
    have hup : m0 + 7 * ((u - m0) / 7) + 3 < daysFromCivil (y - 1 + 1) 1 1 := by
      rw [show y - 1 + 1 = y by ring]; omega
    rw [isoWeekPair_at m0 u (y - 1) hm0w hu1 hlow hup]
    omega
  have hexit2 : ¬ ((isoWeekPair (m0 + ((M - m0).toNat : Int))).1 < y) := by
    rw [show m0 + ((M - m0).toNat : Int) = M by omega]
    rw [isoWeekPair_at M M y hMw (le_refl M) (by omega) (by omega)]
    omega
  have hl2 : fromWeekLoop2 y 64 m0 = M := by
    have happ := fromWeekLoop2_run y (M - m0).toNat 64 m0 (by omega) hint2 hexit2
    rw [happ]; omega
  -- loop 3 advances exactly 7 * (w - 1) days
  have hint3 : ∀ u : Int, M ≤ u → u < M + ((7 * (w - 1)).toNat : Int) →
      (isoWeekPair u).2 < w := by
    intro u hu1 hu2
    rw [show M + ((7 * (w - 1)).toNat : Int) = M + 7 * (w - 1) by omega] at hu2
    have hq0 : 0 ≤ (u - M) / 7 := by omega
    have hq1 : (u - M) / 7 ≤ w - 2 := by omega
    have hlow : daysFromCivil y 1 1 ≤ M + 7 * ((u - M) / 7) + 3 := by omega
    have hup : M + 7 * ((u - M) / 7) + 3 < daysFromCivil (y + 1) 1 1 := by omega
    rw [isoWeekPair_at M u y hMw hu1 hlow hup]
    simp only []
    omega
  have hexit3 : ¬ ((isoWeekPair (M + ((7 * (w - 1)).toNat : Int))).2 < w) := by
    rw [show M + ((7 * (w - 1)).toNat : Int) = M + 7 * (w - 1) by omega, hex]
    omega
  have hl3 : fromWeekLoop3 w 8192 M = M + 7 * (w - 1) := by
    have happ := fromWeekLoop3_run w (7 * (w - 1)).toNat 8192 M (by omega) hint3 hexit3
    rw [happ]; omega
  -- loop 4 is the identity on a Monday
  have hl4 : fromWeekLoop4 7 (M + 7 * (w - 1)) = M + 7 * (w - 1) := by
    apply fromWeekLoop4_run
    unfold goWeekday at hMw ⊢
    omega
  unfold createFromWeekDay
  rw [hl1, hl2, hl3, hl4]

/-! ### The comparison primitive and the period operations -/
theorem compareDate_of_gt {a b : Int} (h : b < a) : compareDate a b = 1 := by
  unfold compareDate; split_ifs <;> omega

theorem compareDate_of_lt {a b : Int} (h : a < b) : compareDate a b = -1 := by
  unfold compareDate; split_ifs <;> omega

theorem compareDate_of_eq {a b : Int} (h : a = b) : compareDate a b = 0 := by
  unfold compareDate; split_ifs <;> omega

theorem compareDate_eq_one (a b : Int) : compareDate a b = 1 ↔ b < a := by
  constructor
  · intro hh
    rcases lt_trichotomy a b with h | h | h
    · rw [compareDate_of_lt h] at hh; omega
    · rw [compareDate_of_eq h] at hh; omega
    · exact h
  · exact compareDate_of_gt

theorem compareDate_eq_neg_one (a b : Int) : compareDate a b = -1 ↔ a < b := by
  constructor
  · intro hh
    rcases lt_trichotomy a b with h | h | h
    · exact h
    · rw [compareDate_of_eq h] at hh; omega
    · rw [compareDate_of_gt h] at hh; omega
  · exact compareDate_of_lt

theorem compareDate_eq_zero (a b : Int) : compareDate a b = 0 ↔ a = b := by
  constructor
  · intro hh
    rcases lt_trichotomy a b with h | h | h
    · rw [compareDate_of_lt h] at hh; omega
    · exact h
    · rw [compareDate_of_gt h] at hh; omega
  · exact compareDate_of_eq

theorem abuts_fst (p q : Period) :
    (p.Abuts q).1 = true ↔ (p.Start = q.End ∨ p.End = q.Start) := by
  unfold Period.Abuts in_array
  simp only [in_array.go]
  rw [← compareDate_eq_zero p.Start q.End, ← compareDate_eq_zero p.End q.Start]
  split_ifs <;> simp_all

/-- C1: for all periods `p`, `q`, `Overlaps` returns true iff `Abuts` is
false and `p.Start` is strictly before `q.End` and `p.End` is strictly after
`q.Start`; in particular whenever `Abuts` returns true, `Overlaps` returns
false. -/
theorem overlaps_spec (p q : Period) :
    (p.Overlaps q = true ↔
      (p.Abuts q).1 = false ∧ p.Start < q.End ∧ q.Start < p.End) ∧
    ((p.Abuts q).1 = true → p.Overlaps q = false) := by
  constructor
  · unfold Period.Overlaps
    cases hab : (p.Abuts q).1 with
    | false =>
      simp only [hab, Bool.false_eq_true, if_false, Bool.and_eq_true, beq_iff_eq, true_and]
      constructor
      · rintro ⟨h1, h2⟩
        exact ⟨(compareDate_eq_neg_one _ _).1 h1.symm, (compareDate_eq_one _ _).1 h2.symm⟩
      · rintro ⟨h1, h2⟩
        exact ⟨((compareDate_eq_neg_one _ _).2 h1).symm, ((compareDate_eq_one _ _).2 h2).symm⟩
    | true => simp [hab]
  · intro h
    unfold Period.Overlaps
    rw [if_pos h]

/-- C2: `Intersect` fails with the abuts error exactly when the two periods
abut (`p.Start = q.End` or `p.End = q.Start`); otherwise it returns the
period whose start is the later of the two starts and whose end is the
earlier of the two ends (so on [0,10) and [5,15) it returns [5,10)). -/
theorem intersect_spec (p q : Period) :
    p.Intersect q =
      if p.Start = q.End ∨ p.End = q.Start then
        ({ Start := zeroTime, End := zeroTime }, [Err.BothShouldNotAbuts])
      else
        ({ Start := max p.Start q.Start, End := min p.End q.End }, []) := by
  unfold Period.Intersect
  by_cases h : p.Start = q.End ∨ p.End = q.Start
  · rw [if_pos ((abuts_fst p q).2 h), if_pos h]
  · rw [if_neg (fun hb => h ((abuts_fst p q).1 hb)), if_neg h]
    simp only [Prod.mk.injEq, Period.mk.injEq, and_true]
    constructor
    · rcases lt_trichotomy p.Start q.Start with hc | hc | hc
      · simp [compareDate_of_gt hc, max_eq_right hc.le]
      · simp [compareDate_of_eq hc.symm, max_eq_right hc.le, hc]
      · simp [compareDate_of_lt hc, max_eq_left hc.le]
    · rcases lt_trichotomy q.End p.End with hc | hc | hc
      · simp [compareDate_of_lt hc, min_eq_right hc.le]
      · simp [compareDate_of_eq hc, min_eq_left (le_of_eq hc.symm), hc]
      · simp [compareDate_of_gt hc, min_eq_left hc.le]

theorem createFromDatepoints_eq (d1 d2 : Int) :
    createFromDatepoints d1 d2 = { Start := min d1 d2, End := max d1 d2 } := by
  unfold createFromDatepoints
  rcases lt_trichotomy d1 d2 with hc | hc | hc
  · simp [compareDate_of_lt hc, min_eq_left hc.le, max_eq_right hc.le]
  · simp [compareDate_of_eq hc, min_eq_left (le_of_eq hc), max_eq_right (le_of_eq hc), hc]
  · simp [compareDate_of_gt hc, min_eq_right hc.le, max_eq_left hc.le]

/-- C3: `Diff` fails with the must-overlap error exactly when `Overlaps` is
false; when the periods overlap it returns the leading slice
[min of starts, max of starts] and the trailing slice
[min of ends, max of ends], each included only when its two endpoints
differ, so the result holds at most two periods, each with start ≤ end. -/
theorem diff_spec (p q : Period) :
    (p.Overlaps q = false → p.Diff q = ([], [Err.ShouldOverlapsError])) ∧
    (p.Overlaps q = true →
      p.Diff q =
        ((if min p.Start q.Start ≠ max p.Start q.Start then
            [{ Start := min p.Start q.Start, End := max p.Start q.Start }] else []) ++
          (if min p.End q.End ≠ max p.End q.End then
            [{ Start := min p.End q.End, End := max p.End q.End }] else []), [])) ∧
    (p.Diff q).1.length ≤ 2 ∧
    (∀ r ∈ (p.Diff q).1, r.Start ≤ r.End) := by
  have h1 : p.Overlaps q = false → p.Diff q = ([], [Err.ShouldOverlapsError]) := by
    intro h
    unfold Period.Diff
    rw [if_pos h]
  have h2 : p.Overlaps q = true →
      p.Diff q =
        ((if min p.Start q.Start ≠ max p.Start q.Start then
            [{ Start := min p.Start q.Start, End := max p.Start q.Start }] else []) ++
          (if min p.End q.End ≠ max p.End q.End then
            [{ Start := min p.End q.End, End := max p.End q.End }] else []), []) := by
    intro h
    unfold Period.Diff
    rw [if_neg (by simp [h])]
    rw [createFromDatepoints_eq, createFromDatepoints_eq]
    simp only [ne_eq, compareDate_eq_zero]
  refine ⟨h1, h2, ?_, ?_⟩
  · cases hov : p.Overlaps q with
    | false => rw [h1 hov]; simp
    | true => rw [h2 hov]; split_ifs <;> simp
  · intro r hr
    cases hov : p.Overlaps q with
    | false => rw [h1 hov] at hr; simp at hr
    | true =>
      rw [h2 hov] at hr
      simp only [List.mem_append] at hr
      rcases hr with hr | hr <;> split_ifs at hr <;> simp at hr <;>
        rw [hr] <;> exact min_le_max

/-- C4: `Contains p t` is true iff `t` is at or after `p.Start` and strictly
before `p.End` (half-open, start-inclusive, end-exclusive), by
full-resolution instant comparison. -/
theorem contains_spec (p : Period) (index : Int) :
    p.Contains index = true ↔ p.Start ≤ index ∧ index < p.End := by
  unfold Period.Contains
  simp only [Bool.and_eq_true, decide_eq_true_eq, beq_iff_eq]
  constructor
  · rintro ⟨hg, he⟩
    constructor
    · rcases lt_trichotomy index p.Start with hc | hc | hc
      · rw [compareDate_of_lt hc] at hg; omega
      · exact le_of_eq hc.symm
      · exact hc.le
    · exact (compareDate_eq_neg_one index p.End).1 he.symm
  · rintro ⟨hg, he⟩
    refine ⟨?_, ((compareDate_eq_neg_one index p.End).2 he).symm⟩
    rcases lt_or_eq_of_le hg with hc | hc
    · rw [compareDate_of_gt hc]; omega
    · rw [compareDate_of_eq hc.symm]; omega

/-- C7: `CompareDuration` returns the three-way comparison of the end
instants (`p.End` against `q.End`, not of the two durations), and
`DurationGreaterThan` / `DurationLessThan` / `SameDurationAs` report that
comparison being `+1` / `-1` / `0` respectively. -/
theorem compareDuration_spec (p q : Period) :
    p.CompareDuration q = compareDate p.End q.End ∧
    (p.DurationGreaterThan q = true ↔ compareDate p.End q.End = 1) ∧
    (p.DurationLessThan q = true ↔ compareDate p.End q.End = -1) ∧
    (p.SameDurationAs q = true ↔ compareDate p.End q.End = 0) := by
  refine ⟨rfl, ?_, ?_, ?_⟩ <;>
    simp only [Period.DurationGreaterThan, Period.DurationLessThan, Period.SameDurationAs,
      Period.CompareDuration, beq_iff_eq] <;>
    exact eq_comm

/-- C9: `Next` sets the new start to the old end and the new end to the old
end plus the old duration, and `Previous` after `Next` restores the original
start. -/
theorem next_previous_spec (p : Period) :
    p.Next = { Start := p.End, End := p.End + (p.End - p.Start) } ∧
    ((p.Next).Previous).Start = p.Start := by
  unfold Period.Next Period.Previous Period.GetDurationInterval addDuration subDuration
  refine ⟨rfl, ?_⟩
  simp only []
  ring

/-- C8: each calendar constructor fails with `OutOfRangeError` exactly when
its unit index leaves its bound (week 1..53, month 1..12, quarter 1..4,
semester 1..2); the error is part of the constructor result, and
`validateRange` never clamps the value it returns. -/
theorem outOfRange_spec (year v lo hi : Int) :
    ((CreateFromWeek year v).2 = if v < 1 ∨ v > 53 then [Err.OutOfRangeError] else []) ∧
    ((CreateFromMonth year v).2 = if v < 1 ∨ v > 12 then [Err.OutOfRangeError] else []) ∧
    ((CreateFromQuarter year v).2 = if v < 1 ∨ v > 4 then [Err.OutOfRangeError] else []) ∧
    ((CreateFromSemester year v).2 = if v < 1 ∨ v > 2 then [Err.OutOfRangeError] else []) ∧
    (validateRange v lo hi).1 = v := by
  unfold CreateFromWeek CreateFromMonth CreateFromQuarter CreateFromSemester validateRange
  refine ⟨?_, ?_, ?_, ?_, ?_⟩ <;> split_ifs <;> simp_all

theorem merge_step (acc x : Period) :
    (Period.mk (if 1 == compareDate acc.Start x.Start then x.Start else acc.Start)
      (if -1 == compareDate acc.End x.End then x.End else acc.End))
    = ⟨min acc.Start x.Start, max acc.End x.End⟩ := by
  have h1 : (if 1 == compareDate acc.Start x.Start then x.Start else acc.Start)
      = min acc.Start x.Start := by
    rcases lt_trichotomy acc.Start x.Start with hc | hc | hc
    · simp [compareDate_of_lt hc, min_eq_left hc.le]
    · simp [compareDate_of_eq hc, min_eq_left (le_of_eq hc)]
    · simp [compareDate_of_gt hc, min_eq_right hc.le]
  have h2 : (if -1 == compareDate acc.End x.End then x.End else acc.End)
      = max acc.End x.End := by
    rcases lt_trichotomy acc.End x.End with hc | hc | hc
    · simp [compareDate_of_lt hc, max_eq_right hc.le]
    · simp [compareDate_of_eq hc, max_eq_left (le_of_eq hc.symm), hc]
    · simp [compareDate_of_gt hc, max_eq_left hc.le]
  rw [h1, h2]

theorem merge_eq (p : Period) (periods : List Period) :
    p.Merge periods =
      ⟨(periods.map Period.Start).foldl min p.Start,
        (periods.map Period.End).foldl max p.End⟩ := by
  induction periods generalizing p with
  | nil => rfl
  | cons x xs ih =>
    unfold Period.Merge at *
    simp only [List.foldl_cons, List.map_cons]
    rw [merge_step p x, ih]

/-- C6: after `Merge`, the receiver start is the minimum start and its end
the maximum end over the original period and all arguments, and the result
does not depend on the order of the arguments. -/
theorem merge_spec (p : Period) (periods : List Period) :
    (p.Merge periods).Start = (periods.map Period.Start).foldl min p.Start ∧
    (p.Merge periods).End = (periods.map Period.End).foldl max p.End ∧
    (∀ periods2, periods.Perm periods2 → p.Merge periods = p.Merge periods2) := by
  refine ⟨by rw [merge_eq], by rw [merge_eq], ?_⟩
  intro l2 hperm
  rw [merge_eq, merge_eq]
  rw [(hperm.map Period.Start).foldl_eq' (fun x _hx y _hy z => min_right_comm z x y) p.Start,
    (hperm.map Period.End).foldl_eq' (fun x _hx y _hy z => Max.right_comm z x y) p.End]

/-- C10 counterexample: `CreateFromYear 999` discards the parse failure and
returns a nil error with the zero Start, but its End is NOT the zero time
value (it is the zero time advanced by one year), refuting the claim that
both endpoints are the zero time. -/
theorem createFromYear_badYear_cex :
    (CreateFromYear 999).2 = [] ∧ (CreateFromYear 999).1.Start = zeroTime ∧
    (CreateFromYear 999).1.End ≠ zeroTime := by decide

/-- C10 (amended): for every year whose decimal rendering is not exactly
four digits, `CreateFromYear`, `CreateFromMonth`, `CreateFromQuarter` and
`CreateFromSemester` (with an in-range unit index) discard the internal
date-parse failure and return a nil error with Start the zero time value and
End the zero time advanced by the constructor span (one year / month /
quarter / semester: 365, 31, 90 and 181 days from 0001-01-01). -/
theorem createFrom_badYear_spec (year : Int) (h : year < 1000 ∨ 9999 < year) :
    CreateFromYear year = ({ Start := zeroTime, End := zeroTime + 365 * nsPerDay }, []) ∧
    (∀ m : Int, 1 ≤ m → m ≤ 12 →
      CreateFromMonth year m = ({ Start := zeroTime, End := zeroTime + 31 * nsPerDay }, [])) ∧
    (∀ qt : Int, 1 ≤ qt → qt ≤ 4 →
      CreateFromQuarter year qt = ({ Start := zeroTime, End := zeroTime + 90 * nsPerDay }, [])) ∧
    (∀ s : Int, 1 ≤ s → s ≤ 2 →
      CreateFromSemester year s = ({ Start := zeroTime, End := zeroTime + 181 * nsPerDay }, [])) := by
  have hp : ∀ m : Int, parseYearMonth year m = none := by
    intro m
    unfold parseYearMonth
    rw [if_neg (by omega)]
  refine ⟨?_, ?_, ?_, ?_⟩
  · unfold CreateFromYear
    rw [hp 1]
    decide
  · intro m hm1 hm2
    have hv : validateRange m 1 12 = (m, []) := by
      unfold validateRange; rw [if_neg (by omega)]
    unfold CreateFromMonth
    rw [hv]
    simp only [ne_eq, not_true_eq_false, if_neg, hp m]
    rw [if_neg (by simp)]
    decide
  · intro qt h1 h2
    have hv : validateRange qt 1 4 = (qt, []) := by
      unfold validateRange; rw [if_neg (by omega)]
    unfold CreateFromQuarter
    rw [hv]
    simp only []
    rw [if_neg (by simp), hp (((qt, ([] : List Err)).1 - 1) * 3 + 1)]
    decide
  · intro s h1 h2
    have hv : validateRange s 1 2 = (s, []) := by
      unfold validateRange; rw [if_neg (by omega)]
    unfold CreateFromSemester
    rw [hv]
    rw [if_neg (by simp), hp (((s, ([] : List Err)).1 - 1) * 6 + 1)]
    decide

/-- C10 witness: the amended statement at the concrete year 999. -/
theorem createFrom_badYear_witness :
    CreateFromYear 999 = ({ Start := zeroTime, End := zeroTime + 365 * nsPerDay }, []) ∧
    CreateFromMonth 999 12 = ({ Start := zeroTime, End := zeroTime + 31 * nsPerDay }, []) := by
  have h := createFrom_badYear_spec 999 (Or.inl (by decide))
  exact ⟨h.1, h.2.1 12 (by decide) (by decide)⟩

/-! ### `CreateFromWeek` against the ISO-8601 calendar (claim C5) -/
/-- C5 (amended): for every year `y` and week `w` in 1..53 such that ISO
year `y` has a week `w` (the `w`-th Monday counted from ISO week 1 of `y`
is still labelled `(y, w)` by ISO-8601 numbering), `CreateFromWeek y w` with
the default Monday first-day-of-week returns the period whose start is that
Monday — the first day of ISO week `w` of ISO year `y` — and whose end is
the start plus seven days. -/
theorem createFromWeek_spec (year week : Int) (h1 : 1 ≤ week) (h2 : week ≤ 53)
    (hex : isoWeekPair (isoWeek1Monday year + 7 * (week - 1)) = (year, week)) :
    CreateFromWeek year week =
      ({ Start := dayNs (isoWeek1Monday year + 7 * (week - 1)),
         End := dayNs (isoWeek1Monday year + 7 * (week - 1) + 7) }, []) ∧
    goWeekday (isoWeek1Monday year + 7 * (week - 1)) = 1 := by
  constructor
  · have hv : validateRange week 1 53 = (week, []) := by
      unfold validateRange; rw [if_neg (by omega)]
    unfold CreateFromWeek
    rw [hv]
    rw [if_neg (by simp)]
    simp only []
    rw [createFromWeekDay_eq year week h1 h2 hex]
  · have := (isoWeek1Monday_facts year).1
    unfold goWeekday at this ⊢
    omega

set_option maxRecDepth 20000 in
/-- C5 witness: `CreateFromWeek 2015 1` yields start 2014-12-29T00:00:00Z
and end = start + 7 days. -/
theorem createFromWeek_spec_witness :
    CreateFromWeek 2015 1 =
      ({ Start := dayNs (daysFromCivil 2014 12 29),
         End := dayNs (daysFromCivil 2014 12 29 + 7) }, []) := by
  have h := (createFromWeek_spec 2015 1 (by decide) (by decide) (by decide)).1
  rw [h]
  decide

set_option maxRecDepth 200000 in
/-- C5 counterexample: ISO year 2014 has 52 weeks (December 28 falls in week
52), yet `CreateFromWeek 2014 53` succeeds and returns 2015-12-28, the
Monday of ISO week 53 of ISO year 2015 — not a week of ISO year 2014 as the
unrestricted claim states. -/
theorem createFromWeek_2014_53_cex :
    (CreateFromWeek 2014 53).1.Start = dayNs (daysFromCivil 2015 12 28) ∧
    isoWeekPair (daysFromCivil 2015 12 28) = (2015, 53) ∧
    isoWeekPair (daysFromCivil 2014 12 28) = (2014, 52) ∧
    (CreateFromWeek 2014 53).2 = [] := by
  refine ⟨by decide, by decide, by decide, by decide⟩
